import Mathlib

/-!
Shallow embedding of the FPL transfer scoring engine
(`models.py`, `config.py`, `transfer_analyzer.py`).

Python floats are modelled as exact rationals (ℚ); `round(x, 2)` is
modelled as round-half-to-even at two decimal places (`round2`).
Python `list.sort(key=..., reverse=True)` is a stable descending sort,
modelled by the stable insertion sort `sortByNetDesc`.
Optional fields (`form`, `status`, ...) are `Option`; Python truthiness
of these fields (`not player.form`, `if player.status`) is modelled
explicitly, so `some 0` and `some ""` are falsy like in the source.
-/

/-- Mirrors dataclass `Player` in `models.py`. -/
structure Player where
  id : ℤ
  name : String
  team : String
  position : String
  price : ℚ
  points : ℤ
  games_played : ℤ
  selected_by_percent : ℚ
  form : Option ℚ := none
  xp : Option ℚ := none
  chance_of_playing : Option ℤ := none
  status : Option String := none
  deriving DecidableEq

/-- Mirrors dataclass `Fixture` in `models.py`. -/
structure Fixture where
  gameweek : ℤ
  team : String
  opponent : String
  difficulty : ℤ
  is_home : Bool
  deriving DecidableEq

/-- Mirrors dataclass `Transfer` in `models.py` (fields only; the method
`calculate_net_gain` is modelled below as a function returning the
updated record, since the Python method mutates `self`). -/
structure Transfer where
  player_out : Player
  player_in : Player
  games_ahead : ℕ
  expected_points_gain : ℚ
  transfer_cost : ℤ := 4
  net_point_gain : ℚ := 0
  recommendation : String := ""
  deriving DecidableEq

/-- Mirrors `DEFAULT_GAMES_AHEAD = 8` in `config.py`. -/
def DEFAULT_GAMES_AHEAD : ℕ := 8

/-- Mirrors `MIN_POINT_GAIN = 5` in `config.py`. -/
def MIN_POINT_GAIN : ℚ := 5

/-- Mirrors `TRANSFER_COST = 4` in `config.py`. -/
def TRANSFER_COST : ℤ := 4

/-- Mirrors `Transfer.calculate_net_gain` in `models.py`: sets
`net_point_gain = expected_points_gain - transfer_cost` and derives the
recommendation by the band thresholds `>= 5` GOOD, `>= 0` NEUTRAL,
else BAD. -/
def Transfer.calculate_net_gain (t : Transfer) : Transfer :=
  let net := t.expected_points_gain - (t.transfer_cost : ℚ)
  { t with
    net_point_gain := net
    recommendation := if 5 ≤ net then "GOOD" else if 0 ≤ net then "NEUTRAL" else "BAD" }

/-- Round a rational to the nearest integer, ties to even. -/
def round2Int (s : ℚ) : ℤ :=
  if s - ⌊s⌋ < 1/2 then ⌊s⌋
  else if (1:ℚ)/2 < s - ⌊s⌋ then ⌊s⌋ + 1
  else if ⌊s⌋ % 2 = 0 then ⌊s⌋ else ⌊s⌋ + 1

/-- Python `round(q, 2)`: round to two decimal places, ties to even
(bankers rounding), on the exact rational value. -/
def round2 (q : ℚ) : ℚ := (round2Int (q * 100) : ℚ) / 100

/-- Mirrors the constructor state of class `TransferAnalyzer`: the player
pool, the fixture list and the horizon `games_ahead`. -/
structure TransferAnalyzer where
  players : List Player
  fixtures : List Fixture
  games_ahead : ℕ := DEFAULT_GAMES_AHEAD
  deriving DecidableEq

/-- Mirrors `TransferAnalyzer._build_team_fixtures`, read back as a
lookup: the dict maps each team to its fixtures in input order, so
looking a team up yields the input fixtures filtered to that team. -/
def teamFixtures (fixtures : List Fixture) (team : String) : List Fixture :=
  fixtures.filter (fun f => f.team == team)

/-- Mirrors `TransferAnalyzer.get_average_fdr`: neutral 3.0 when the
team is absent from the fixture map or the horizon window is empty,
else the mean difficulty of the first `games_ahead` fixtures, rounded
to two decimals. -/
def get_average_fdr (a : TransferAnalyzer) (player : Player) : ℚ :=
  if teamFixtures a.fixtures player.team = [] then 3
  else
    let tf := (teamFixtures a.fixtures player.team).take a.games_ahead
    if tf = [] then 3
    else round2 ((tf.map (fun f => (f.difficulty : ℚ))).sum / (tf.length : ℚ))

/-- Mirrors the dict `TransferAnalyzer.POSITION_WEIGHTS` together with
the `.get(position, 1.0)` lookup default. -/
def POSITION_WEIGHTS (position : String) : ℚ :=
  if position = "GKP" then 1/2
  else if position = "DEF" then 4/5
  else if position = "MID" then 6/5
  else if position = "FWD" then 3/2
  else 1

/-- Python truthiness of `player.status and player.status != "a"`:
the penalty branch is taken only when the status is present, non-empty
and different from the available code. -/
def statusPenalized : Option String → Bool
  | none => false
  | some s => s != "" && s != "a"

/-- The unrounded product built inside
`TransferAnalyzer.calculate_expected_points` for a player whose form is
truthy: form times horizon, rescaled by the difficulty multiplier, the
position weight, and the availability penalty, before the final
`round(xp, 2)`. -/
def xp_unrounded (a : TransferAnalyzer) (player : Player) (form : ℚ) : ℚ :=
  let xp := form * (a.games_ahead : ℚ)
  let fdr := get_average_fdr a player
  let fdr_multiplier := (6 - fdr) / 3
  let xp := xp * fdr_multiplier
  let xp := xp * POSITION_WEIGHTS player.position
  if statusPenalized player.status then xp * (1/2) else xp

/-- Mirrors `TransferAnalyzer.calculate_expected_points`.  Note Python
truthiness on `not player.form`: both an absent form and a present form
equal to 0 short-circuit to 0.0. -/
def calculate_expected_points (a : TransferAnalyzer) (player : Player) : ℚ :=
  match player.form with
  | none => 0
  | some form =>
    if form = 0 then 0
    else round2 (xp_unrounded a player form)

/-- The `Transfer(...)` construction followed by `calculate_net_gain()`
inside the candidate loop of `find_smart_transfers`. -/
def mkTransfer (a : TransferAnalyzer) (current_player candidate : Player) : Transfer :=
  Transfer.calculate_net_gain
    { player_out := current_player
      player_in := candidate
      games_ahead := a.games_ahead
      expected_points_gain :=
        calculate_expected_points a candidate - calculate_expected_points a current_player
      transfer_cost := TRANSFER_COST }

/-- One step of stable insertion sort, descending on `net_point_gain`:
the new element goes in front of the first element whose key is at most
its own, hence after every earlier element with an equal key. -/
def insertDesc (x : Transfer) : List Transfer → List Transfer
  | [] => [x]
  | u :: us => if u.net_point_gain ≤ x.net_point_gain then x :: u :: us else u :: insertDesc x us

/-- Stable sort descending on `net_point_gain`; models Python
`transfers.sort(key=lambda t: t.net_point_gain, reverse=True)`, which
is a stable descending sort. -/
def sortByNetDesc : List Transfer → List Transfer
  | [] => []
  | x :: xs => insertDesc x (sortByNetDesc xs)

/-- Mirrors `TransferAnalyzer.find_smart_transfers`: filter the pool by
position and distinct id, build a transfer per candidate, sort by net
gain descending, keep only GOOD ones. -/
def find_smart_transfers (a : TransferAnalyzer) (current_player : Player)
    (position : Option String := none) : List Transfer :=
  let position := position.getD current_player.position
  let candidates := a.players.filter
    (fun p => p.position == position && p.id != current_player.id)
  let transfers := candidates.map (mkTransfer a current_player)
  (sortByNetDesc transfers).filter (fun t => t.recommendation == "GOOD")

/-- Mirrors `TransferAnalyzer.recommend_transfers`: accumulate the per
player recommendations over the squad in order, then sort the merged
list by net gain descending. -/
def recommend_transfers (a : TransferAnalyzer) (current_squad : List Player) : List Transfer :=
  let all_recommendations :=
    current_squad.foldl (fun acc player => acc ++ find_smart_transfers a player none) []
  sortByNetDesc all_recommendations

/-- The recommendation band, as a pure function of the net gain: the
derivation given in the spec: `net >= 5` GOOD, `0 <= net < 5` NEUTRAL, `net < 0`
BAD. -/
def recommendationOfNet (net : ℚ) : String :=
  if 5 ≤ net then "GOOD" else if 0 ≤ net then "NEUTRAL" else "BAD"

/-- Pairwise descending order on `net_point_gain`. -/
def NetSortedDesc (l : List Transfer) : Prop :=
  l.Pairwise (fun t u => u.net_point_gain ≤ t.net_point_gain)

theorem calculate_net_gain_net (t : Transfer) :
    (t.calculate_net_gain).net_point_gain = t.expected_points_gain - (t.transfer_cost : ℚ) := rfl

theorem calculate_net_gain_gain (t : Transfer) :
    (t.calculate_net_gain).expected_points_gain = t.expected_points_gain := rfl

theorem calculate_net_gain_cost (t : Transfer) :
    (t.calculate_net_gain).transfer_cost = t.transfer_cost := rfl

theorem calculate_net_gain_rec (t : Transfer) :
    (t.calculate_net_gain).recommendation =
      recommendationOfNet ((t.calculate_net_gain).net_point_gain) := rfl

theorem mkTransfer_player_in (a : TransferAnalyzer) (cp c : Player) :
    (mkTransfer a cp c).player_in = c := rfl

theorem mkTransfer_player_out (a : TransferAnalyzer) (cp c : Player) :
    (mkTransfer a cp c).player_out = cp := rfl

theorem insertDesc_perm (x : Transfer) (l : List Transfer) :
    List.Perm (insertDesc x l) (x :: l) := by
  induction l with
  | nil => exact List.Perm.refl _
  | cons u us ih =>
    simp only [insertDesc]
    split
    · exact List.Perm.refl _
    · exact (ih.cons u).trans (List.Perm.swap x u us)

theorem sortByNetDesc_perm (l : List Transfer) : List.Perm (sortByNetDesc l) l := by
  induction l with
  | nil => exact List.Perm.refl _
  | cons x xs ih => exact (insertDesc_perm x (sortByNetDesc xs)).trans (ih.cons x)

theorem mem_insertDesc {t x : Transfer} {l : List Transfer} :
    t ∈ insertDesc x l ↔ t = x ∨ t ∈ l := by
  rw [(insertDesc_perm x l).mem_iff, List.mem_cons]

theorem mem_sortByNetDesc {t : Transfer} {l : List Transfer} :
    t ∈ sortByNetDesc l ↔ t ∈ l := (sortByNetDesc_perm l).mem_iff

theorem insertDesc_sorted {l : List Transfer} (x : Transfer) (hl : NetSortedDesc l) :
    NetSortedDesc (insertDesc x l) := by
  induction l with
  | nil => simp [insertDesc, NetSortedDesc]
  | cons u us ih =>
    rcases List.pairwise_cons.mp hl with ⟨hu, hus⟩
    simp only [insertDesc]
    split
    · rename_i hle
      refine List.pairwise_cons.mpr ⟨?_, hl⟩
      intro y hy
      rcases List.mem_cons.mp hy with rfl | hy'
      · exact hle
      · exact (hu y hy').trans hle
    · rename_i hgt
      refine List.pairwise_cons.mpr ⟨?_, ih hus⟩
      intro y hy
      rcases mem_insertDesc.mp hy with rfl | hy'
      · exact le_of_lt (lt_of_not_le hgt)
      · exact hu y hy'

theorem sortByNetDesc_sorted (l : List Transfer) : NetSortedDesc (sortByNetDesc l) := by
  induction l with
  | nil => exact List.Pairwise.nil
  | cons x xs ih => exact insertDesc_sorted x ih

theorem insertDesc_front {x : Transfer} {l : List Transfer}
    (h : ∀ y ∈ l, y.net_point_gain ≤ x.net_point_gain) : insertDesc x l = x :: l := by
  cases l with
  | nil => rfl
  | cons u us => simp [insertDesc, h u (List.mem_cons_self u us)]

theorem filter_insertDesc (p : Transfer → Bool) (x : Transfer) {l : List Transfer}
    (hl : NetSortedDesc l) :
    (insertDesc x l).filter p =
      if p x then insertDesc x (l.filter p) else l.filter p := by
  induction l with
  | nil => cases hpx : p x <;> simp [insertDesc, List.filter, hpx]
  | cons u us ih =>
    rcases List.pairwise_cons.mp hl with ⟨hu, hus⟩
    simp only [insertDesc]
    split
    · rename_i hle
      split
      · rename_i hx
        rw [insertDesc_front ?h]
        case h =>
          intro y hy
          rcases List.mem_cons.mp (List.mem_of_mem_filter hy) with rfl | hy'
          · exact hle
          · exact (hu y hy').trans hle
        simp [List.filter_cons, hx]
      · rename_i hx
        simp [List.filter_cons, hx]
    · rename_i hgt
      split
      · rename_i hx
        cases hpu : p u with
        | true => simp [List.filter_cons, hpu, hx, ih hus, insertDesc, hgt]
        | false => simp [List.filter_cons, hpu, hx, ih hus]
      · rename_i hx
        simp [List.filter_cons, ih hus, hx]

theorem filter_sortByNetDesc (p : Transfer → Bool) (l : List Transfer) :
    (sortByNetDesc l).filter p = sortByNetDesc (l.filter p) := by
  induction l with
  | nil => rfl
  | cons x xs ih =>
    simp only [sortByNetDesc]
    rw [filter_insertDesc p x (sortByNetDesc_sorted xs), ih]
    split
    · rename_i hx
      simp [List.filter_cons, hx, sortByNetDesc]
    · rename_i hx
      simp [List.filter_cons, hx]

theorem find_smart_transfers_eq_sorted_goods (a : TransferAnalyzer) (cp : Player)
    (pos : Option String) :
    find_smart_transfers a cp pos =
      sortByNetDesc
        (((a.players.filter (fun p => p.position == pos.getD cp.position && p.id != cp.id)).map
          (mkTransfer a cp)).filter (fun t => t.recommendation == "GOOD")) := by
  unfold find_smart_transfers
  rw [filter_sortByNetDesc]

theorem foldl_append_eq_flatten (f : Player → List Transfer) (squad : List Player)
    (init : List Transfer) :
    squad.foldl (fun acc player => acc ++ f player) init = init ++ (squad.map f).flatten := by
  induction squad generalizing init with
  | nil => simp
  | cons q qs ih => simp [List.foldl, ih, List.append_assoc]

theorem recommend_transfers_eq_sorted_flatten (a : TransferAnalyzer) (squad : List Player) :
    recommend_transfers a squad =
      sortByNetDesc ((squad.map (fun player => find_smart_transfers a player none)).flatten) := by
  unfold recommend_transfers
  rw [foldl_append_eq_flatten]
  simp

theorem mem_find_smart_transfers {a : TransferAnalyzer} {cp : Player} {pos : Option String}
    {t : Transfer} (ht : t ∈ find_smart_transfers a cp pos) :
    ∃ c ∈ a.players.filter (fun p => p.position == pos.getD cp.position && p.id != cp.id),
      t = mkTransfer a cp c ∧ t.recommendation = "GOOD" := by
  rw [find_smart_transfers_eq_sorted_goods] at ht
  rw [mem_sortByNetDesc] at ht
  have hgood := List.of_mem_filter ht
  have hmem := List.mem_of_mem_filter ht
  rcases List.mem_map.mp hmem with ⟨c, hc, rfl⟩
  exact ⟨c, hc, rfl, by simpa using hgood⟩

theorem round2_zero : round2 0 = 0 := by norm_num [round2, round2Int]

theorem le_round2Int {s : ℚ} {m : ℤ} (h : (m : ℚ) ≤ s) : m ≤ round2Int s := by
  have hm : m ≤ ⌊s⌋ := Int.le_floor.mpr h
  unfold round2Int
  split_ifs <;> omega

theorem round2Int_le {s : ℚ} {M : ℤ} (h : s ≤ (M : ℚ)) : round2Int s ≤ M := by
  have hM : ⌊s⌋ ≤ M := by
    have := Int.floor_le_floor (α := ℚ) h
    simpa using this
  have hfl : (⌊s⌋ : ℚ) ≤ s := Int.floor_le _
  unfold round2Int
  split_ifs with h1 h2 h3
  · exact hM
  · have hlt : (⌊s⌋ : ℚ) < (M : ℚ) := by linarith
    have : ⌊s⌋ < M := by exact_mod_cast hlt
    omega
  · exact hM
  · push_neg at h1
    have hlt : (⌊s⌋ : ℚ) < (M : ℚ) := by linarith
    have : ⌊s⌋ < M := by exact_mod_cast hlt
    omega

theorem round2_mem_Icc {q : ℚ} (h1 : 1 ≤ q) (h5 : q ≤ 5) :
    1 ≤ round2 q ∧ round2 q ≤ 5 := by
  have hlo : (100 : ℤ) ≤ round2Int (q * 100) := le_round2Int (by push_cast; linarith)
  have hhi : round2Int (q * 100) ≤ (500 : ℤ) := round2Int_le (by push_cast; linarith)
  unfold round2
  constructor
  · rw [le_div_iff₀ (by norm_num : (0:ℚ) < 100)]
    have : (100 : ℚ) ≤ (round2Int (q * 100) : ℚ) := by exact_mod_cast hlo
    linarith
  · rw [div_le_iff₀ (by norm_num : (0:ℚ) < 100)]
    have : ((round2Int (q * 100) : ℚ)) ≤ 500 := by exact_mod_cast hhi
    linarith

theorem mean_mem_Icc {l : List ℚ} (hne : l ≠ []) (h : ∀ x ∈ l, 1 ≤ x ∧ x ≤ 5) :
    1 ≤ l.sum / (l.length : ℚ) ∧ l.sum / (l.length : ℚ) ≤ 5 := by
  have hlen : 0 < (l.length : ℚ) := by
    have hp : 0 < l.length := List.length_pos.mpr hne
    exact_mod_cast hp
  have hlow : l.length • (1:ℚ) ≤ l.sum :=
    List.card_nsmul_le_sum l 1 (fun x hx => (h x hx).1)
  have hhigh : l.sum ≤ l.length • (5:ℚ) :=
    List.sum_le_card_nsmul l 5 (fun x hx => (h x hx).2)
  rw [nsmul_eq_mul] at hlow hhigh
  constructor
  · rw [le_div_iff₀ hlen]
    linarith
  · rw [div_le_iff₀ hlen]
    linarith

/-- The outgoing player of the worked scenario in the spec: a midfielder in
form 5.0, available, with neutral fixture difficulty. -/
def scenarioOut : Player :=
  { id := 1, name := "Out", team := "T1", position := "MID", price := 50, points := 0,
    games_played := 0, selected_by_percent := 0, form := some 5, status := some "a" }

/-- The candidate of the worked scenario in the spec: identical context,
form 6.0. -/
def scenarioIn : Player :=
  { id := 2, name := "In", team := "T1", position := "MID", price := 50, points := 0,
    games_played := 0, selected_by_percent := 0, form := some 6, status := some "a" }

/-- Analyzer for the worked scenario: horizon 8 and no fixture data, so
the average difficulty is the neutral 3.0. -/
def scenarioAnalyzer : TransferAnalyzer :=
  { players := [scenarioOut, scenarioIn], fixtures := [], games_ahead := 8 }

/-- A placeholder player used to build concrete transfers. -/
def dummyPlayer : Player :=
  { id := 0, name := "P", team := "T", position := "MID", price := 0, points := 0,
    games_played := 0, selected_by_percent := 0 }

/-- A concrete transfer with a given expected-points gain and the
default transfer cost of 4. -/
def transferWithGain (g : ℚ) : Transfer :=
  { player_out := dummyPlayer, player_in := dummyPlayer, games_ahead := 8,
    expected_points_gain := g }

/-- A concrete fixture of difficulty 2 for team T1. -/
def fixtureEasy : Fixture :=
  { gameweek := 1, team := "T1", opponent := "T2", difficulty := 2, is_home := true }

/-- A concrete fixture of difficulty 4 for team T1. -/
def fixtureHard : Fixture :=
  { gameweek := 2, team := "T1", opponent := "T3", difficulty := 4, is_home := false }

/-- Analyzer with two concrete fixtures for team T1. -/
def fdrAnalyzer : TransferAnalyzer :=
  { players := [], fixtures := [fixtureEasy, fixtureHard], games_ahead := 8 }

/-- An available player with a tiny form value, used to exhibit the
rounding behaviour of the availability penalty. -/
def availablePlayer : Player :=
  { id := 1, name := "A", team := "T1", position := "UNK", price := 0, points := 0,
    games_played := 0, selected_by_percent := 0, form := some (3/100), status := some "a" }

/-- The same player flagged injured. -/
def injuredPlayer : Player := { availablePlayer with status := some "i" }

/-- Analyzer with horizon 1 and no fixtures. -/
def horizonOneAnalyzer : TransferAnalyzer :=
  { players := [], fixtures := [], games_ahead := 1 }

/-- A player whose status is present but empty. -/
def emptyStatusPlayer : Player := { scenarioOut with id := 3, status := some "" }

/-- C3: after `calculate_net_gain` runs, the recommendation is GOOD iff
the net gain is at least 5, NEUTRAL iff it lies in [0, 5), and BAD iff
it is negative; concretely net 5.0 gives GOOD, net 4.999 NEUTRAL, net
0.0 NEUTRAL and net -0.001 BAD. -/
theorem recommendation_bands :
    (∀ t : Transfer,
      ((t.calculate_net_gain).recommendation = "GOOD" ↔
        5 ≤ (t.calculate_net_gain).net_point_gain) ∧
      ((t.calculate_net_gain).recommendation = "NEUTRAL" ↔
        0 ≤ (t.calculate_net_gain).net_point_gain ∧
          (t.calculate_net_gain).net_point_gain < 5) ∧
      ((t.calculate_net_gain).recommendation = "BAD" ↔
        (t.calculate_net_gain).net_point_gain < 0)) ∧
    ((transferWithGain 9).calculate_net_gain).net_point_gain = 5 ∧
    ((transferWithGain 9).calculate_net_gain).recommendation = "GOOD" ∧
    ((transferWithGain (8999/1000)).calculate_net_gain).net_point_gain = 4999/1000 ∧
    ((transferWithGain (8999/1000)).calculate_net_gain).recommendation = "NEUTRAL" ∧
    ((transferWithGain 4).calculate_net_gain).net_point_gain = 0 ∧
    ((transferWithGain 4).calculate_net_gain).recommendation = "NEUTRAL" ∧
    ((transferWithGain (3999/1000)).calculate_net_gain).net_point_gain = -(1/1000) ∧
    ((transferWithGain (3999/1000)).calculate_net_gain).recommendation = "BAD" := by
  refine ⟨?_, ?_, ?_, ?_, ?_, ?_, ?_, ?_, ?_⟩
  · intro t
    simp only [Transfer.calculate_net_gain]
    split_ifs with h1 h2
    · exact ⟨iff_of_true rfl h1,
        iff_of_false (by simp) (by rintro ⟨-, h5⟩; linarith),
        iff_of_false (by simp) (by intro h0; linarith)⟩
    · exact ⟨iff_of_false (by simp) h1,
        iff_of_true rfl ⟨h2, lt_of_not_le h1⟩,
        iff_of_false (by simp) (by intro h0; linarith)⟩
    · exact ⟨iff_of_false (by simp) h1,
        iff_of_false (by simp) (by rintro ⟨h0, -⟩; exact h2 h0),
        iff_of_true rfl (lt_of_not_le h2)⟩
  · norm_num [transferWithGain, Transfer.calculate_net_gain]
  · norm_num [transferWithGain, Transfer.calculate_net_gain]
  · norm_num [transferWithGain, Transfer.calculate_net_gain]
  · norm_num [transferWithGain, Transfer.calculate_net_gain]
  · norm_num [transferWithGain, Transfer.calculate_net_gain]
  · norm_num [transferWithGain, Transfer.calculate_net_gain]
  · norm_num [transferWithGain, Transfer.calculate_net_gain]
  · norm_num [transferWithGain, Transfer.calculate_net_gain]

/-- C8: a player with absent form always gets expected points exactly 0,
for any analyzer and horizon, and the other core operations resolve
missing data to neutral defaults or empty results instead of failing:
no fixtures gives the neutral 3.0, an empty filtered pool gives an empty
transfer list, and an empty squad gives an empty recommendation list. -/
theorem missing_data_defaults :
    (∀ (a : TransferAnalyzer) (p : Player), p.form = none →
      calculate_expected_points a p = 0) ∧
    (∀ (a : TransferAnalyzer) (p : Player), teamFixtures a.fixtures p.team = [] →
      get_average_fdr a p = 3) ∧
    (∀ (a : TransferAnalyzer) (cp : Player) (pos : Option String),
      a.players.filter (fun p => p.position == pos.getD cp.position && p.id != cp.id) = [] →
      find_smart_transfers a cp pos = []) ∧
    (∀ a : TransferAnalyzer, recommend_transfers a [] = []) := by
  refine ⟨?_, ?_, ?_, ?_⟩
  · intro a p hform
    simp [calculate_expected_points, hform]
  · intro a p hfix
    simp [get_average_fdr, hfix]
  · intro a cp pos hpool
    simp [find_smart_transfers, hpool, sortByNetDesc]
  · intro a
    simp [recommend_transfers, sortByNetDesc]

/-- Witness for C8 at a concrete input: the placeholder player has no
form, and its expected points under the scenario analyzer are 0. -/
theorem missing_data_defaults_witness :
    dummyPlayer.form = none ∧ calculate_expected_points scenarioAnalyzer dummyPlayer = 0 :=
  ⟨rfl, missing_data_defaults.1 scenarioAnalyzer dummyPlayer rfl⟩

/-- C9: a present-but-empty status string is falsy in Python, so no
availability penalty applies: the player scores the same as with an
absent status. -/
theorem empty_status_not_penalized :
    ∀ (a : TransferAnalyzer) (p : Player), p.status = some "" →
      statusPenalized p.status = false ∧
      calculate_expected_points a p = calculate_expected_points a { p with status := none } := by
  intro a p hstatus
  have hpen : statusPenalized p.status = false := by rw [hstatus]; rfl
  refine ⟨hpen, ?_⟩
  unfold calculate_expected_points
  cases hform : p.form with
  | none => rfl
  | some f =>
    simp only
    by_cases hf0 : f = 0
    · simp [hf0]
    · rw [if_neg hf0, if_neg hf0]
      congr 1
      unfold xp_unrounded
      simp only [hpen, Bool.false_eq_true, if_false]
      have hpen' : statusPenalized ({ p with status := none } : Player).status = false := rfl
      simp only [hpen', Bool.false_eq_true, if_false]
      rfl

/-- Witness for C9 at a concrete input: the empty-status player. -/
theorem empty_status_not_penalized_witness :
    statusPenalized emptyStatusPlayer.status = false ∧
    calculate_expected_points scenarioAnalyzer emptyStatusPlayer =
      calculate_expected_points scenarioAnalyzer { emptyStatusPlayer with status := none } :=
  empty_status_not_penalized scenarioAnalyzer emptyStatusPlayer rfl

/-- C1: for every player with a present form, the expected points equal
the rounded product form x horizon x difficulty multiplier x position
weight x availability penalty; on the worked scenario (MID, form 5.0,
status "a", neutral difficulty, horizon 8) this gives 48.0, the form
6.0 candidate gives 57.6, hence gain 9.6, net 5.6 and GOOD. -/
theorem expected_points_formula :
    (∀ (a : TransferAnalyzer) (p : Player) (f : ℚ), p.form = some f →
      calculate_expected_points a p =
        round2 (f * (a.games_ahead : ℚ) * ((6 - get_average_fdr a p) / 3) *
          POSITION_WEIGHTS p.position *
          (if statusPenalized p.status then (1:ℚ)/2 else 1))) ∧
    calculate_expected_points scenarioAnalyzer scenarioOut = 48 ∧
    calculate_expected_points scenarioAnalyzer scenarioIn = 288/5 ∧
    (mkTransfer scenarioAnalyzer scenarioOut scenarioIn).expected_points_gain = 48/5 ∧
    (mkTransfer scenarioAnalyzer scenarioOut scenarioIn).net_point_gain = 28/5 ∧
    (mkTransfer scenarioAnalyzer scenarioOut scenarioIn).recommendation = "GOOD" := by
  refine ⟨?_, ?_, ?_, ?_, ?_, ?_⟩
  · intro a p f hf
    simp only [calculate_expected_points, hf]
    by_cases hf0 : f = 0
    · subst hf0
      rw [if_pos rfl]
      have harg : (0:ℚ) * (a.games_ahead : ℚ) * ((6 - get_average_fdr a p) / 3) *
          POSITION_WEIGHTS p.position *
          (if statusPenalized p.status then (1:ℚ)/2 else 1) = 0 := by ring
      rw [harg, round2_zero]
    · rw [if_neg hf0]
      congr 1
      simp only [xp_unrounded]
      by_cases hsp : statusPenalized p.status = true
      · rw [if_pos hsp, if_pos hsp]
      · rw [if_neg hsp, if_neg hsp]
        ring
  · simp [calculate_expected_points, xp_unrounded, get_average_fdr, teamFixtures,
      scenarioAnalyzer, scenarioOut, POSITION_WEIGHTS, statusPenalized]
    norm_num [round2, round2Int]
  · simp [calculate_expected_points, xp_unrounded, get_average_fdr, teamFixtures,
      scenarioAnalyzer, scenarioIn, POSITION_WEIGHTS, statusPenalized]
    norm_num [round2, round2Int]
  · simp [mkTransfer, Transfer.calculate_net_gain, TRANSFER_COST,
      calculate_expected_points, xp_unrounded, get_average_fdr, teamFixtures,
      scenarioAnalyzer, scenarioOut, scenarioIn, POSITION_WEIGHTS, statusPenalized]
    norm_num [round2, round2Int]
  · simp [mkTransfer, Transfer.calculate_net_gain, TRANSFER_COST,
      calculate_expected_points, xp_unrounded, get_average_fdr, teamFixtures,
      scenarioAnalyzer, scenarioOut, scenarioIn, POSITION_WEIGHTS, statusPenalized]
    norm_num [round2, round2Int]
  · simp [mkTransfer, Transfer.calculate_net_gain, TRANSFER_COST,
      calculate_expected_points, xp_unrounded, get_average_fdr, teamFixtures,
      scenarioAnalyzer, scenarioOut, scenarioIn, POSITION_WEIGHTS, statusPenalized]
    norm_num [round2, round2Int]

/-- Witness for C1 at the scenario input: the form of the outgoing
player is present and the formula instance holds there. -/
theorem expected_points_formula_witness :
    scenarioOut.form = some 5 ∧
    calculate_expected_points scenarioAnalyzer scenarioOut =
      round2 (5 * (scenarioAnalyzer.games_ahead : ℚ) *
        ((6 - get_average_fdr scenarioAnalyzer scenarioOut) / 3) *
        POSITION_WEIGHTS scenarioOut.position *
        (if statusPenalized scenarioOut.status then (1:ℚ)/2 else 1)) :=
  ⟨rfl, expected_points_formula.1 scenarioAnalyzer scenarioOut 5 rfl⟩

/-- C2: for every team and horizon at least 1, the average FDR is the
mean of the difficulty ratings of the first `games_ahead` fixtures of
the team in input order, rounded to 2 decimals, and exactly 3.0 when
the team has no known fixtures; the function is total, so no error is
possible for missing data. -/
theorem average_fdr_spec :
    ∀ (a : TransferAnalyzer) (p : Player), 1 ≤ a.games_ahead →
      (teamFixtures a.fixtures p.team = [] → get_average_fdr a p = 3) ∧
      (teamFixtures a.fixtures p.team ≠ [] →
        get_average_fdr a p =
          round2
            ((((teamFixtures a.fixtures p.team).take a.games_ahead).map
                (fun f => (f.difficulty : ℚ))).sum /
              (((teamFixtures a.fixtures p.team).take a.games_ahead).length : ℚ))) := by
  intro a p hN
  constructor
  · intro h
    simp [get_average_fdr, h]
  · intro h
    have htake : ¬((teamFixtures a.fixtures p.team).take a.games_ahead = []) := by
      rw [List.take_eq_nil_iff]
      rintro (h0 | hl)
      · omega
      · exact h hl
    simp [get_average_fdr, h, htake]

/-- Witness for C2 at a concrete input: two fixtures of difficulties 2
and 4 for the team of the player, horizon 8. -/
theorem average_fdr_spec_witness :
    1 ≤ fdrAnalyzer.games_ahead ∧
    get_average_fdr fdrAnalyzer scenarioOut =
      round2
        ((((teamFixtures fdrAnalyzer.fixtures scenarioOut.team).take fdrAnalyzer.games_ahead).map
            (fun f => (f.difficulty : ℚ))).sum /
          (((teamFixtures fdrAnalyzer.fixtures scenarioOut.team).take
            fdrAnalyzer.games_ahead).length : ℚ)) :=
  ⟨by norm_num [fdrAnalyzer],
    (average_fdr_spec fdrAnalyzer scenarioOut (by norm_num [fdrAnalyzer])).2
      (by simp [teamFixtures, fdrAnalyzer, fixtureEasy, fixtureHard, scenarioOut])⟩

/-- C10: when all fixtures carry a difficulty in [1, 5], the average
FDR always lies in [1.0, 5.0] (the 3.0 default included), hence the
difficulty multiplier (6 - fdr) / 3 lies in [1/3, 5/3], is strictly
positive, and multiplying by it never changes the sign of a quantity. -/
theorem fdr_multiplier_bounds :
    ∀ (a : TransferAnalyzer) (p : Player),
      (∀ f ∈ a.fixtures, (1:ℤ) ≤ f.difficulty ∧ f.difficulty ≤ 5) →
      (1 ≤ get_average_fdr a p ∧ get_average_fdr a p ≤ 5) ∧
      ((1:ℚ)/3 ≤ (6 - get_average_fdr a p) / 3 ∧ (6 - get_average_fdr a p) / 3 ≤ 5/3) ∧
      0 < (6 - get_average_fdr a p) / 3 ∧
      (∀ x : ℚ, (0 < x → 0 < x * ((6 - get_average_fdr a p) / 3)) ∧
                (x < 0 → x * ((6 - get_average_fdr a p) / 3) < 0) ∧
                (x = 0 → x * ((6 - get_average_fdr a p) / 3) = 0)) := by
  intro a p hdiff
  have hbounds : 1 ≤ get_average_fdr a p ∧ get_average_fdr a p ≤ 5 := by
    simp only [get_average_fdr]
    split
    · norm_num
    · split
      · norm_num
      · rename_i hne htne
        have hmem : ∀ x ∈ ((teamFixtures a.fixtures p.team).take a.games_ahead).map
            (fun f => (f.difficulty : ℚ)), 1 ≤ x ∧ x ≤ 5 := by
          intro x hx
          rcases List.mem_map.mp hx with ⟨fx, hfx, rfl⟩
          have hfx1 : fx ∈ teamFixtures a.fixtures p.team := List.take_subset _ _ hfx
          have hfx2 : fx ∈ a.fixtures := List.mem_of_mem_filter hfx1
          rcases hdiff fx hfx2 with ⟨hl, hr⟩
          constructor
          · exact_mod_cast hl
          · exact_mod_cast hr
        have hne' : ((teamFixtures a.fixtures p.team).take a.games_ahead).map
            (fun f => (f.difficulty : ℚ)) ≠ [] := by
          rw [Ne, List.map_eq_nil_iff]
          exact htne
        have hmean := mean_mem_Icc hne' hmem
        rw [List.length_map] at hmean
        exact round2_mem_Icc hmean.1 hmean.2
  rcases hbounds with ⟨h1, h5⟩
  have hpos : 0 < (6 - get_average_fdr a p) / 3 := by linarith
  refine ⟨⟨h1, h5⟩, ⟨by linarith, by linarith⟩, hpos, ?_⟩
  intro x
  refine ⟨fun hx => mul_pos hx hpos, fun hx => mul_neg_of_neg_of_pos hx hpos,
    fun hx => by rw [hx, zero_mul]⟩

/-- Witness for C10 at a concrete input: the two-fixture analyzer has
all difficulties in range and its average FDR lands in [1, 5]. -/
theorem fdr_multiplier_bounds_witness :
    (∀ f ∈ fdrAnalyzer.fixtures, (1:ℤ) ≤ f.difficulty ∧ f.difficulty ≤ 5) ∧
    (1 ≤ get_average_fdr fdrAnalyzer dummyPlayer ∧
      get_average_fdr fdrAnalyzer dummyPlayer ≤ 5) :=
  ⟨by decide, (fdr_multiplier_bounds fdrAnalyzer dummyPlayer (by decide)).1⟩

theorem xp_unrounded_zero (a : TransferAnalyzer) (p : Player) : xp_unrounded a p 0 = 0 := by
  simp only [xp_unrounded]
  split <;> ring

theorem calculate_expected_points_eq {a : TransferAnalyzer} {p : Player} {f : ℚ}
    (hf : p.form = some f) :
    calculate_expected_points a p = if f = 0 then 0 else round2 (xp_unrounded a p f) := by
  unfold calculate_expected_points
  rw [hf]

/-- C7 (counterexample): with horizon 1, an unknown-position player of
form 0.03, the available version scores 0.03 but the injured version
scores round(0.015, 2) = 0.02, which is not half of 0.03; the claimed
exact halving of the returned values fails because the 0.5 factor is
applied before the final rounding. -/
theorem availability_penalty_counterexample :
    calculate_expected_points horizonOneAnalyzer injuredPlayer ≠
      calculate_expected_points horizonOneAnalyzer availablePlayer / 2 := by
  have hA : calculate_expected_points horizonOneAnalyzer availablePlayer = 3/100 := by
    simp [calculate_expected_points, xp_unrounded, get_average_fdr, teamFixtures,
      horizonOneAnalyzer, availablePlayer, POSITION_WEIGHTS, statusPenalized]
    norm_num [round2, round2Int]
  have hI : calculate_expected_points horizonOneAnalyzer injuredPlayer = 1/50 := by
    simp [calculate_expected_points, xp_unrounded, get_average_fdr, teamFixtures,
      horizonOneAnalyzer, injuredPlayer, availablePlayer, POSITION_WEIGHTS, statusPenalized]
    norm_num [round2, round2Int]
  rw [hA, hI]
  norm_num

/-- C7 (amended): the 0.5 availability penalty is applied to the
pre-rounding product: for two players identical except that one has
status "i" and the other status "a", the expected points of the
flagged player equal the 2-decimal rounding of half the unrounded
product of the available player; exact halving of the returned (rounded) values
can fail by at most the final rounding step. -/
theorem availability_penalty_amended :
    ∀ (a : TransferAnalyzer) (p q : Player) (f : ℚ),
      p.form = some f → p.status = some "a" → q = { p with status := some "i" } →
      calculate_expected_points a q = round2 (xp_unrounded a p f * (1/2)) := by
  intro a p q f hf hs hq
  subst hq
  have hf' : ({ p with status := some "i" } : Player).form = some f := hf
  rw [calculate_expected_points_eq hf']
  by_cases hf0 : f = 0
  · rw [if_pos hf0, hf0, xp_unrounded_zero]
    rw [show (0:ℚ) * (1/2) = 0 by ring, round2_zero]
  · rw [if_neg hf0]
    congr 1
    simp only [xp_unrounded]
    have hq_pen : statusPenalized ({ p with status := some "i" } : Player).status = true := rfl
    have hp_pen : ¬(statusPenalized p.status = true) := by rw [hs]; simp [statusPenalized]
    rw [if_pos hq_pen, if_neg hp_pen]
    rfl

/-- Witness for the amended C7 at a concrete input: the injured copy of
the tiny-form player. -/
theorem availability_penalty_amended_witness :
    availablePlayer.form = some (3/100) ∧ availablePlayer.status = some "a" ∧
    calculate_expected_points horizonOneAnalyzer injuredPlayer =
      round2 (xp_unrounded horizonOneAnalyzer availablePlayer (3/100) * (1/2)) :=
  ⟨rfl, rfl,
    availability_penalty_amended horizonOneAnalyzer availablePlayer injuredPlayer (3/100)
      rfl rfl rfl⟩

/-- Analyzer with an empty player pool. -/
def emptyAnalyzer : TransferAnalyzer := { players := [], fixtures := [], games_ahead := 8 }

/-- C4: `find_smart_transfers` returns exactly the GOOD-rated transfers
built from the pool members matching the position filter (defaulting to
the own position of the outgoing player) with a different id, stably sorted
by descending net gain (equal-net entries keep pool order); it never
includes the outgoing player itself, and an empty filtered pool yields
an empty list. -/
theorem find_smart_transfers_spec :
    ∀ (a : TransferAnalyzer) (cp : Player) (pos : Option String),
      find_smart_transfers a cp pos =
        sortByNetDesc
          (((a.players.filter (fun p => p.position == pos.getD cp.position && p.id != cp.id)).map
            (mkTransfer a cp)).filter (fun t => t.recommendation == "GOOD")) ∧
      (∀ t ∈ find_smart_transfers a cp pos,
        t.recommendation = "GOOD" ∧ t.player_in.id ≠ cp.id ∧
        t.player_in.position = pos.getD cp.position ∧ t.player_in ∈ a.players) ∧
      NetSortedDesc (find_smart_transfers a cp pos) ∧
      (a.players.filter (fun p => p.position == pos.getD cp.position && p.id != cp.id) = [] →
        find_smart_transfers a cp pos = []) := by
  intro a cp pos
  refine ⟨find_smart_transfers_eq_sorted_goods a cp pos, ?_, ?_, ?_⟩
  · intro t ht
    rcases mem_find_smart_transfers ht with ⟨c, hc, rfl, hgood⟩
    rcases List.mem_filter.mp hc with ⟨hcmem, hcond⟩
    rw [Bool.and_eq_true] at hcond
    rcases hcond with ⟨hpos, hid⟩
    refine ⟨hgood, ?_, ?_, hcmem⟩
    · rw [mkTransfer_player_in]
      simpa using hid
    · rw [mkTransfer_player_in]
      simpa using hpos
  · rw [find_smart_transfers_eq_sorted_goods]
    exact sortByNetDesc_sorted _
  · intro h
    rw [find_smart_transfers_eq_sorted_goods, h]
    rfl

/-- Witness for C4 at a concrete input: an empty pool produces no
transfers. -/
theorem find_smart_transfers_spec_witness :
    find_smart_transfers emptyAnalyzer dummyPlayer none = [] :=
  (find_smart_transfers_spec emptyAnalyzer dummyPlayer none).2.2.2 rfl

/-- C5: every transfer produced by `find_smart_transfers` or
`recommend_transfers` satisfies net gain = expected gain minus cost
exactly, and its recommendation is the band of its net gain. -/
theorem transfer_net_gain_invariant :
    (∀ (a : TransferAnalyzer) (cp : Player) (pos : Option String) (t : Transfer),
      t ∈ find_smart_transfers a cp pos →
      t.net_point_gain = t.expected_points_gain - (t.transfer_cost : ℚ) ∧
      t.recommendation = recommendationOfNet t.net_point_gain) ∧
    (∀ (a : TransferAnalyzer) (squad : List Player) (t : Transfer),
      t ∈ recommend_transfers a squad →
      t.net_point_gain = t.expected_points_gain - (t.transfer_cost : ℚ) ∧
      t.recommendation = recommendationOfNet t.net_point_gain) := by
  have hfind : ∀ (a : TransferAnalyzer) (cp : Player) (pos : Option String) (t : Transfer),
      t ∈ find_smart_transfers a cp pos →
      t.net_point_gain = t.expected_points_gain - (t.transfer_cost : ℚ) ∧
      t.recommendation = recommendationOfNet t.net_point_gain := by
    intro a cp pos t ht
    rcases mem_find_smart_transfers ht with ⟨c, _, rfl, _⟩
    exact ⟨rfl, rfl⟩
  refine ⟨hfind, ?_⟩
  intro a squad t ht
  rw [recommend_transfers_eq_sorted_flatten, mem_sortByNetDesc] at ht
  rcases List.mem_flatten.mp ht with ⟨l, hl, htl⟩
  rcases List.mem_map.mp hl with ⟨pl, _, rfl⟩
  exact hfind a pl none t htl

/-- C6: `recommend_transfers` is the stable descending re-sort of the
concatenation of the per-squad-member `find_smart_transfers` results
(each with the own position of the member as filter); it is a permutation of
that concatenation, its length is the sum of the individual lengths
(the per-call GOOD-counts), and no deduplication happens. -/
theorem recommend_transfers_spec :
    ∀ (a : TransferAnalyzer) (squad : List Player),
      recommend_transfers a squad =
        sortByNetDesc ((squad.map (fun player => find_smart_transfers a player none)).flatten) ∧
      List.Perm (recommend_transfers a squad)
        ((squad.map (fun player => find_smart_transfers a player none)).flatten) ∧
      (recommend_transfers a squad).length =
        (squad.map (fun player => (find_smart_transfers a player none).length)).sum ∧
      NetSortedDesc (recommend_transfers a squad) := by
  intro a squad
  refine ⟨recommend_transfers_eq_sorted_flatten a squad, ?_, ?_, ?_⟩
  · rw [recommend_transfers_eq_sorted_flatten]
    exact sortByNetDesc_perm _
  · rw [recommend_transfers_eq_sorted_flatten, (sortByNetDesc_perm _).length_eq,
      List.length_flatten, List.map_map]
    rfl
  · rw [recommend_transfers_eq_sorted_flatten]
    exact sortByNetDesc_sorted _

/-- Witness for C5 at a concrete input: the scenario transfer is in the
output of `find_smart_transfers` and satisfies the invariant. -/
theorem transfer_net_gain_invariant_witness :
    (mkTransfer scenarioAnalyzer scenarioOut scenarioIn).net_point_gain =
      (mkTransfer scenarioAnalyzer scenarioOut scenarioIn).expected_points_gain -
        ((mkTransfer scenarioAnalyzer scenarioOut scenarioIn).transfer_cost : ℚ) :=
  (transfer_net_gain_invariant.1 scenarioAnalyzer scenarioOut none
    (mkTransfer scenarioAnalyzer scenarioOut scenarioIn) (by
      have heval : find_smart_transfers scenarioAnalyzer scenarioOut none =
          [mkTransfer scenarioAnalyzer scenarioOut scenarioIn] := by
        simp [find_smart_transfers, scenarioAnalyzer, scenarioOut, scenarioIn,
          sortByNetDesc, insertDesc, mkTransfer, Transfer.calculate_net_gain, TRANSFER_COST,
          calculate_expected_points, xp_unrounded, get_average_fdr, teamFixtures,
          POSITION_WEIGHTS, statusPenalized]
        norm_num [round2, round2Int]
      rw [heval]
      exact List.mem_singleton_self _)).1
